import Mathlib

/-!
Verification development for the `brain_observatory.ipynb` notebook of the
CNI-JC repository.  The notebook is script-style glue around an external
SDK (`BrainObservatoryCache`); the definitions below are a shallow
embedding of the notebook's own code (the dataframe filters, the ROI mask
union loop, the histogram accumulation loops, the neuropil-correction
arithmetic, the slicing) together with spec-modelled stubs for the
external query methods where noted.  Numeric dataframe columns are
embedded as rationals, integer index columns as integers, record tables
as lists of structures.
-/

namespace CNIJC

/-- A row of the cell-specimen table (`cells = pd.DataFrame.from_records(...)`),
restricted to the columns the notebook's filters read. -/
structure CellRow where
  cell_specimen_id : ℕ
  experiment_container_id : ℕ
  p_dg : ℚ
  dsi_dg : ℚ
deriving DecidableEq, Repr

/-- `visp_cells = cells[cells['experiment_container_id'].isin(visp_ec_ids)]`
(cell-15 of the notebook). -/
def visp_cells (cells : List CellRow) (visp_ec_ids : List ℕ) : List CellRow :=
  cells.filter (fun c => visp_ec_ids.contains c.experiment_container_id)

/-- `sig_cells = visp_cells[visp_cells['p_dg'] < 0.05]` (cell-15). -/
def sig_cells (cells : List CellRow) (visp_ec_ids : List ℕ) : List CellRow :=
  (visp_cells cells visp_ec_ids).filter (fun c => decide (c.p_dg < 0.05))

/-- `dsi_cells = sig_cells[(sig_cells['dsi_dg'] > 0.5) & (sig_cells['dsi_dg'] < 1.5)]`
(cell-15). -/
def dsi_cells (cells : List CellRow) (visp_ec_ids : List ℕ) : List CellRow :=
  (sig_cells cells visp_ec_ids).filter
    (fun c => decide (0.5 < c.dsi_dg) && decide (c.dsi_dg < 1.5))

/-- A concrete cell row used to instantiate the pipeline theorems. -/
def cellEx : CellRow :=
  { cell_specimen_id := 517425074
    experiment_container_id := 511510736
    p_dg := 1/100
    dsi_dg := 1 }

/-- `correction = raw_traces[0] - results['r'] * neuropil_traces[0]` (cell-29):
elementwise arithmetic performed by the notebook's own code on the two
fetched traces, with the scalar contamination ratio `r` returned by the
external `estimate_contamination_ratios` call. -/
def correction (raw0 : List ℚ) (r : ℚ) (neuropil0 : List ℚ) : List ℚ :=
  List.zipWith (fun a b => a - r * b) raw0 neuropil0

/-- `time[:len(dff_traces[0])]` (cell-22): Python slicing of a sequence to
its first `n` elements, total for every `n`. -/
def sliceTo (time : List ℚ) (n : ℕ) : List ℚ :=
  time.take n

/-- `BrainObservatoryNwbDataSet.MOVIE_FOV_PX`, the field-of-view shape used
to allocate `sum_mask = np.zeros(data_set.MOVIE_FOV_PX)` (cell-24). -/
def MOVIE_FOV_PX : ℕ × ℕ := (512, 512)

/-- The value grid of one decoded ROI mask plane (`roi_mask.get_mask_plane()`),
an integer image over the field of view. -/
abbrev MaskPlane := Fin MOVIE_FOV_PX.1 → Fin MOVIE_FOV_PX.2 → ℤ

/-- The accumulation loop of cell-24:
`sum_mask = np.zeros(MOVIE_FOV_PX); for roi_mask in all_roi_masks:
sum_mask[roi_mask.get_mask_plane() > 0] = 1`. -/
def sum_mask (all_roi_masks : List MaskPlane) : MaskPlane :=
  all_roi_masks.foldl
    (fun s m => fun i j => if 0 < m i j then 1 else s i j)
    (fun _ _ => 0)

/-- The unguarded first-element access of the notebook (`xs[0]` on a list,
`.iloc[0]` on a dataframe): `none` is the Python `IndexError` case. -/
def first0 {α : Type} (l : List α) : Option α :=
  l.head?

/-- An experiment-container record as returned by
`boc.get_experiment_containers` (cell-2 and cell-6). -/
structure ContainerRec where
  id : ℕ
  targeted_structure : String
  imaging_depth : ℕ
  cre_line : String
deriving DecidableEq, Repr

/-- An ophys-experiment record as returned by `boc.get_ophys_experiments`
(cell-9 onward); it carries exactly one `experiment_container_id`. -/
structure ExpRec where
  id : ℕ
  experiment_container_id : ℕ
  session_type : String
  stimuli : List String
deriving DecidableEq, Repr

/-- The record-level state behind the `BrainObservatoryCache` query surface:
the tables the notebook's metadata queries read. -/
structure BocState where
  targeted_structures : List String
  imaging_depths : List ℕ
  all_stimuli : List String
  cre_lines : List String
  containers : List ContainerRec
  experiments : List ExpRec
  cell_specimens : List CellRow
deriving DecidableEq, Repr

/-- Modelled from the spec: `boc.get_all_targeted_structures()` is a
read-only query of the external SDK (implementation absent from src). -/
def get_all_targeted_structures (s : BocState) : List String × BocState :=
  (s.targeted_structures, s)

/-- Modelled from the spec: `boc.get_all_imaging_depths()` is a read-only
query of the external SDK (implementation absent from src). -/
def get_all_imaging_depths (s : BocState) : List ℕ × BocState :=
  (s.imaging_depths, s)

/-- Modelled from the spec: `boc.get_all_stimuli()` is a read-only query of
the external SDK (implementation absent from src). -/
def get_all_stimuli (s : BocState) : List String × BocState :=
  (s.all_stimuli, s)

/-- Modelled from the spec: `boc.get_all_cre_lines()` is a read-only query
of the external SDK (implementation absent from src). -/
def get_all_cre_lines (s : BocState) : List String × BocState :=
  (s.cre_lines, s)

/-- Modelled from the spec: `boc.get_experiment_containers(...)` is a
read-only query of the external SDK returning the containers matching the
requested targeted structures and Cre lines; an empty argument list means
no constraint (implementation absent from src). -/
def get_experiment_containers (s : BocState)
    (structures cre_line_filter : List String) : List ContainerRec × BocState :=
  (s.containers.filter (fun c =>
      (structures.isEmpty || structures.contains c.targeted_structure) &&
      (cre_line_filter.isEmpty || cre_line_filter.contains c.cre_line)), s)

/-- Modelled from the spec: `boc.get_ophys_experiments(...)` is a read-only
query of the external SDK returning the experiments whose (unique) parent
container is among the requested container ids and which presented one of
the requested stimuli; an empty argument list means no constraint
(implementation absent from src). -/
def get_ophys_experiments (s : BocState)
    (ids : List ℕ) (stim_filter : List String) : List ExpRec × BocState :=
  (s.experiments.filter (fun e =>
      (ids.isEmpty || ids.contains e.experiment_container_id) &&
      (stim_filter.isEmpty || stim_filter.any (fun st => e.stimuli.contains st))), s)

/-- Modelled from the spec: `boc.get_cell_specimens()` is a read-only query
of the external SDK (implementation absent from src). -/
def get_cell_specimens (s : BocState) : List CellRow × BocState :=
  (s.cell_specimens, s)

/-- The cells of one experiment container: the partition of the
cell-specimen table induced by the single `experiment_container_id` column
that the `isin` filter and `unique()` step of cells 15 and 17 read. -/
def cellsOfContainer (cells : List CellRow) (cid : ℕ) : List CellRow :=
  cells.filter (fun c => c.experiment_container_id == cid)

/-- The values the notebook prints from its metadata cells: the listed
tables and the four pipeline counts of cell-15. -/
structure NotebookOutputs where
  targeted_structures : List String
  n_visp_ecs : ℕ
  imaging_depths : List ℕ
  all_stimuli : List String
  cre_lines : List String
  n_cux2_ecs : ℕ
  total_cells : ℕ
  n_visp_cells : ℕ
  n_sig_cells : ℕ
  n_dsi_cells : ℕ
deriving DecidableEq, Repr

/-- The notebook's metadata cells in program order (cells 1 through 15):
each SDK query is issued against the state returned by the previous one,
and the cell-15 filters are applied to the fetched cell table. -/
def runNotebook (s : BocState) : BocState × NotebookOutputs :=
  let (structures, s1) := get_all_targeted_structures s
  let (visp_ecs, s2) := get_experiment_containers s1 ["VISp"] []
  let (depths, s3) := get_all_imaging_depths s2
  let (stims, s4) := get_all_stimuli s3
  let (cres, s5) := get_all_cre_lines s4
  let (cux2_ecs, s6) := get_experiment_containers s5 [] ["Cux2-CreERT2"]
  let (cellRecs, s7) := get_cell_specimens s6
  let visp_ec_ids := visp_ecs.map (fun ec => ec.id)
  (s7,
    { targeted_structures := structures
      n_visp_ecs := visp_ecs.length
      imaging_depths := depths
      all_stimuli := stims
      cre_lines := cres
      n_cux2_ecs := cux2_ecs.length
      total_cells := cellRecs.length
      n_visp_cells := (visp_cells cellRecs visp_ec_ids).length
      n_sig_cells := (sig_cells cellRecs visp_ec_ids).length
      n_dsi_cells := (dsi_cells cellRecs visp_ec_ids).length })

/-- A concrete experiment-container record for instantiating theorems. -/
def containerEx : ContainerRec :=
  { id := 511510736
    targeted_structure := "VISp"
    imaging_depth := 175
    cre_line := "Cux2-CreERT2" }

/-- A concrete ophys-experiment record for instantiating theorems. -/
def expEx : ExpRec :=
  { id := 511534603
    experiment_container_id := 511510736
    session_type := "three_session_A"
    stimuli := ["drifting_gratings"] }

/-- A concrete SDK state for instantiating theorems. -/
def bocEx : BocState :=
  { targeted_structures := ["VISal", "VISl", "VISp", "VISpm"]
    imaging_depths := [175, 275, 350, 375]
    all_stimuli := ["drifting_gratings", "static_gratings"]
    cre_lines := ["Cux2-CreERT2", "Rbp4-Cre"]
    containers := [containerEx]
    experiments := [expEx]
    cell_specimens := [cellEx] }

/-- The on-disk cache behind `get_ophys_experiment_data`: the stored NWB
data per experiment id, plus the log of performed downloads. -/
structure CacheState (Data : Type) where
  store : ℕ → Option Data
  downloads : List ℕ

/-- Modelled from the spec: `boc.get_ophys_experiment_data(id)` downloads
the NWB data on first request, stores it in the local cache established
via the manifest file, and serves every later request for the same id from
the cache (implementation is in the external SDK, absent from src).
`remote` is the remote data source, `s.downloads` the download log. -/
def get_ophys_experiment_data {Data : Type} (remote : ℕ → Data)
    (s : CacheState Data) (id : ℕ) : Data × CacheState Data :=
  match s.store id with
  | some d => (d, s)
  | none =>
      let d := remote id
      (d, { store := fun k => if k = id then some d else s.store k
            downloads := s.downloads ++ [id] })

/-- A row of the `dg.peak` analysis table (cell-27), restricted to the
columns read there: the tuning metrics and the integer orientation and
temporal-frequency bin indices. -/
structure PeakRow where
  ptest_dg : ℚ
  peak_dff_dg : ℚ
  osi_dg : ℚ
  dsi_dg : ℚ
  ori_dg : ℤ
  tf_dg : ℤ
deriving DecidableEq, Repr

/-- `vis_cells = (dg.peak.ptest_dg < 0.05) & (dg.peak.peak_dff_dg > 3)`
(cell-27), as a row predicate. -/
def dg_vis_cells (t : PeakRow) : Bool :=
  decide (t.ptest_dg < 0.05) && decide (3 < t.peak_dff_dg)

/-- `osi_cells = vis_cells & (dg.peak.osi_dg > 0.5) & (dg.peak.osi_dg <= 1.5)`
(cell-27), as a row predicate. -/
def dg_osi_cells (t : PeakRow) : Bool :=
  dg_vis_cells t && decide (0.5 < t.osi_dg) && decide (t.osi_dg ≤ 1.5)

/-- `dsi_cells = vis_cells & (dg.peak.dsi_dg > 0.5) & (dg.peak.dsi_dg <= 1.5)`
(cell-27), as a row predicate. -/
def dg_dsi_cells (t : PeakRow) : Bool :=
  dg_vis_cells t && decide (0.5 < t.dsi_dg) && decide (t.dsi_dg ≤ 1.5)

/-- A 2-d histogram array of shape `R × C` with counter entries
(`np.zeros((len(dg.orivals), len(dg.tfvals)-1))` holds counts). -/
def Mat (R C : ℕ) : Type := Fin R → Fin C → ℕ

/-- Numpy integer indexing into an axis of length `n`: indices in
`[0, n)` are taken as is, indices in `[-n, 0)` wrap around from the end,
anything else raises `IndexError` (`none`). -/
def npIndex (n : ℕ) (i : ℤ) : Option (Fin n) :=
  if h : 0 ≤ i ∧ i < (n : ℤ) then some ⟨i.toNat, by omega⟩
  else if h' : -(n : ℤ) ≤ i ∧ i < 0 then some ⟨(i + n).toNat, by omega⟩
  else none

/-- One loop iteration of cell-27, `arr[trial.ori_dg, trial.tf_dg - 1] += 1`,
with both indices resolved by numpy indexing; `none` is the `IndexError`
case. -/
def bumpAt {R C : ℕ} (m : Mat R C) (o t : ℤ) : Option (Mat R C) :=
  match npIndex R o, npIndex C t with
  | some i, some j => some (fun a b => if a = i ∧ b = j then m a b + 1 else m a b)
  | _, _ => none

/-- The full accumulation loop of cell-27 over the selected rows, starting
from the zero array: `for i, trial in dg.peak[mask].iterrows():
arr[trial.ori_dg, trial.tf_dg - 1] += 1`. -/
def histDG (R C : ℕ) (rows : List PeakRow) : Option (Mat R C) :=
  rows.foldlM (fun m t => bumpAt m t.ori_dg (t.tf_dg - 1)) (fun _ _ => 0)

/-- The sum of all entries of a histogram array. -/
def total {R C : ℕ} (m : Mat R C) : ℕ :=
  ∑ a : Fin R, ∑ b : Fin C, m a b

/-- A concrete `dg.peak` row for instantiating the histogram theorems. -/
def peakEx : PeakRow :=
  { ptest_dg := 1/100
    peak_dff_dg := 4
    osi_dg := 1
    dsi_dg := 1
    ori_dg := 1
    tf_dg := 2 }

/-- **C1.** The cell-filtering pipeline is correct: `visp_cells` holds exactly
the rows of `cells` whose `experiment_container_id` is among the VISp
container ids, `sig_cells` exactly the rows of `visp_cells` with
`p_dg < 0.05`, `dsi_cells` exactly the rows of `sig_cells` with
`0.5 < dsi_dg < 1.5`; hence `dsi_cells ⊆ sig_cells ⊆ visp_cells ⊆ cells`
and every row of `dsi_cells` satisfies all three predicates at once. -/
theorem C1_filter_pipeline (cells : List CellRow) (ids : List ℕ) :
    (∀ c, c ∈ visp_cells cells ids ↔
        c ∈ cells ∧ c.experiment_container_id ∈ ids) ∧
    (∀ c, c ∈ sig_cells cells ids ↔
        c ∈ visp_cells cells ids ∧ c.p_dg < 0.05) ∧
    (∀ c, c ∈ dsi_cells cells ids ↔
        c ∈ sig_cells cells ids ∧ 0.5 < c.dsi_dg ∧ c.dsi_dg < 1.5) ∧
    dsi_cells cells ids ⊆ sig_cells cells ids ∧
    sig_cells cells ids ⊆ visp_cells cells ids ∧
    visp_cells cells ids ⊆ cells ∧
    (∀ c ∈ dsi_cells cells ids,
        c.experiment_container_id ∈ ids ∧ c.p_dg < 0.05 ∧
        0.5 < c.dsi_dg ∧ c.dsi_dg < 1.5) := by
  have hv : ∀ c, c ∈ visp_cells cells ids ↔
      c ∈ cells ∧ c.experiment_container_id ∈ ids := by
    intro c
    simp [visp_cells, List.mem_filter, List.elem_iff]
  have hs : ∀ c, c ∈ sig_cells cells ids ↔
      c ∈ visp_cells cells ids ∧ c.p_dg < 0.05 := by
    intro c
    simp [sig_cells, List.mem_filter]
  have hd : ∀ c, c ∈ dsi_cells cells ids ↔
      c ∈ sig_cells cells ids ∧ 0.5 < c.dsi_dg ∧ c.dsi_dg < 1.5 := by
    intro c
    simp [dsi_cells, List.mem_filter]
  refine ⟨hv, hs, hd, ?_, ?_, ?_, ?_⟩
  · intro c hc; exact ((hd c).mp hc).1
  · intro c hc; exact ((hs c).mp hc).1
  · intro c hc; exact ((hv c).mp hc).1
  · intro c hc
    obtain ⟨hcs, h05, h15⟩ := (hd c).mp hc
    obtain ⟨hcv, hp⟩ := (hs c).mp hcs
    obtain ⟨_, hid⟩ := (hv c).mp hcv
    exact ⟨hid, hp, h05, h15⟩

/-- Witness for C1: the membership characterisation evaluated on a concrete
one-row table, with all membership facts decided concretely. -/
theorem C1_filter_pipeline_witness :
    cellEx ∈ dsi_cells [cellEx] [511510736] ∧
    cellEx.experiment_container_id ∈ [511510736] ∧ cellEx.p_dg < 0.05 ∧
    0.5 < cellEx.dsi_dg ∧ cellEx.dsi_dg < 1.5 := by
  have h := C1_filter_pipeline [cellEx] [511510736]
  have h1 : cellEx ∈ visp_cells [cellEx] [511510736] :=
    (h.1 cellEx).mpr ⟨by simp, by simp [cellEx]⟩
  have h2 : cellEx ∈ sig_cells [cellEx] [511510736] :=
    (h.2.1 cellEx).mpr ⟨h1, by norm_num [cellEx]⟩
  have h3 : cellEx ∈ dsi_cells [cellEx] [511510736] :=
    (h.2.2.1 cellEx).mpr ⟨h2, by norm_num [cellEx], by norm_num [cellEx]⟩
  exact ⟨h3, h.2.2.2.2.2.2 cellEx h3⟩

/-- **C2 (counterexample).** The claim that the notebook's own code performs
no arithmetic transformation of the fetched data beyond forwarding external
results fails on cell-29: on the concrete fetched traces `[5]` and `[1]`
with external ratio `r = 2`, the notebook-computed `correction` is a new
value, equal to neither forwarded trace. -/
theorem C2_no_local_arithmetic_cex :
    correction [5] 2 [1] ≠ [5] ∧ correction [5] 2 [1] ≠ [1] := by
  constructor <;> · simp only [correction, List.zipWith]; norm_num

/-- **C2 (amended).** Every interesting computation is delegated to the
external library, but the notebook's own code does perform elementwise
arithmetic on fetched data: cell-29 applies the externally estimated
contamination ratio pointwise, so the `i`-th element of `correction` is
`raw0[i] - r * neuropil0[i]` whenever both traces have an `i`-th element,
and is absent otherwise. -/
theorem C2_correction_pointwise (raw0 : List ℚ) (r : ℚ) (neuropil0 : List ℚ)
    (i : ℕ) :
    (correction raw0 r neuropil0)[i]? =
      Option.bind raw0[i]? (fun a => Option.map (fun b => a - r * b) neuropil0[i]?) := by
  induction raw0 generalizing neuropil0 i with
  | nil => simp [correction]
  | cons a as ih =>
    cases neuropil0 with
    | nil => simp [correction]
    | cons b bs =>
      cases i with
      | zero => simp [correction]
      | succ n => simpa [correction] using ih bs n

/-- **C9.** The dF/F plotting step tolerates a length mismatch: the sliced
time axis has length `min (len time) (len dff0)`, so whenever the dF/F
trace is at most as long as the time array the two plotted sequences have
equal length; `sliceTo` is total, so the slice never fails. -/
theorem C9_slice_lengths (time dff0 : List ℚ) :
    (sliceTo time dff0.length).length = min time.length dff0.length ∧
    (dff0.length ≤ time.length →
      (sliceTo time dff0.length).length = dff0.length) := by
  constructor
  · simp [sliceTo, List.length_take, Nat.min_comm]
  · intro h
    simp [sliceTo, List.length_take, Nat.min_eq_left h]

/-- Witness for C9: with a three-sample time axis and a two-sample dF/F
trace the slice has exactly the dF/F length. -/
theorem C9_slice_lengths_witness :
    (sliceTo [0, 1, 2] ([3, 4] : List ℚ).length).length = min 3 2 ∧
    (sliceTo [0, 1, 2] ([3, 4] : List ℚ).length).length = ([3, 4] : List ℚ).length := by
  have h := C9_slice_lengths [0, 1, 2] [3, 4]
  exact ⟨h.1, h.2 (by decide)⟩

/-- **C3.** The notebook has no guard or error-handling branch around its
first-element accesses: under the precondition that the query result is
non-empty, `xs[0]` / `.iloc[0]` (embedded as `first0`) succeeds, and on an
empty result it is exactly the unguarded error case (`none`). -/
theorem C3_unguarded_first_access (cells : List CellRow) (ids : List ℕ)
    (exps : List ExpRec) (ecs : List ContainerRec) :
    (dsi_cells cells ids ≠ [] → (first0 (dsi_cells cells ids)).isSome) ∧
    (exps ≠ [] → (first0 exps).isSome) ∧
    (ecs ≠ [] → (first0 ecs).isSome) ∧
    first0 ([] : List ExpRec) = none := by
  refine ⟨?_, ?_, ?_, rfl⟩
  · intro h
    cases hd : dsi_cells cells ids with
    | nil => exact absurd hd h
    | cons x xs => simp [first0, hd]
  · intro h
    cases exps with
    | nil => exact absurd rfl h
    | cons x xs => simp [first0]
  · intro h
    cases ecs with
    | nil => exact absurd rfl h
    | cons x xs => simp [first0]

/-- Witness for C3: on a concrete one-row table all three first-element
accesses succeed, and on the empty list the access is the error case. -/
theorem C3_unguarded_first_access_witness :
    (first0 (dsi_cells [cellEx] [511510736])).isSome ∧
    (first0 [expEx]).isSome ∧
    (first0 [containerEx]).isSome ∧
    first0 ([] : List ExpRec) = none := by
  have h := C3_unguarded_first_access [cellEx] [511510736] [expEx] [containerEx]
  have hne : dsi_cells [cellEx] [511510736] ≠ [] := by
    norm_num [dsi_cells, sig_cells, visp_cells, cellEx, List.filter]
  exact ⟨h.1 hne, h.2.1 (by simp), h.2.2.1 (by simp), h.2.2.2⟩

/-- **C4.** Fetching experiment data is idempotent with respect to the local
cache: for every experiment id, a second `get_ophys_experiment_data` call
with the same id returns data equal to the first call's result and leaves
the cache state (including the download log) unchanged, so no second
download is triggered. -/
theorem C4_fetch_idempotent {Data : Type} (remote : ℕ → Data)
    (s : CacheState Data) (id : ℕ) :
    (get_ophys_experiment_data remote
        (get_ophys_experiment_data remote s id).2 id).1
      = (get_ophys_experiment_data remote s id).1 ∧
    (get_ophys_experiment_data remote
        (get_ophys_experiment_data remote s id).2 id).2
      = (get_ophys_experiment_data remote s id).2 := by
  cases h : s.store id with
  | some d => constructor <;> simp [get_ophys_experiment_data, h]
  | none => constructor <;> simp [get_ophys_experiment_data, h]

/-- **C5.** The cache object is used only through read-only queries: the
notebook's metadata cells, run in program order with all derived values
(filtered frames and counts) computed, return the query-surface state
exactly as it was, so no query result is mutated. -/
theorem C5_queries_read_only (s : BocState) :
    (runNotebook s).1 = s :=
  rfl

/-- **C6.** Each ophys experiment belongs to exactly one experiment
container: every record returned by `get_ophys_experiments` for the single
container id `c` has `c` as its container, every experiment and every cell
record carries exactly one `experiment_container_id`, and partitioning the
cell table by container id assigns each cell to exactly one container. -/
theorem C6_unique_container (s : BocState) (c : ℕ) (cells : List CellRow) :
    (∀ e ∈ (get_ophys_experiments s [c] []).1, e.experiment_container_id = c) ∧
    (∀ e : ExpRec, ∃! cid : ℕ, e.experiment_container_id = cid) ∧
    (∀ cell ∈ cells, ∃! cid : ℕ, cell ∈ cellsOfContainer cells cid) := by
  refine ⟨?_, ?_, ?_⟩
  · intro e he
    have := (List.mem_filter.mp he).2
    simpa [List.elem_iff] using this
  · intro e
    exact ⟨e.experiment_container_id, rfl, fun y hy => hy.symm⟩
  · intro cell hcell
    refine ⟨cell.experiment_container_id, ?_, ?_⟩
    · simp [cellsOfContainer, List.mem_filter, hcell]
    · intro y hy
      have h2 : cell.experiment_container_id = y := by
        simpa using (List.mem_filter.mp hy).2
      exact h2.symm

/-- Witness for C6: the concrete experiment returned for its own container
id has that container id, and the concrete cell row is assigned to exactly
one container by the partition. -/
theorem C6_unique_container_witness :
    expEx.experiment_container_id = 511510736 ∧
    (∃! cid : ℕ, cellEx ∈ cellsOfContainer [cellEx] cid) := by
  have h := C6_unique_container bocEx 511510736 [cellEx]
  refine ⟨h.1 expEx ?_, h.2.2 cellEx (by simp)⟩
  simp [get_ophys_experiments, bocEx, List.mem_filter, expEx]

/-- **C7.** Execution is deterministic, script-style and free of
concurrency: the notebook is a single function of the SDK responses issued
in program order, so two runs that receive identical responses produce
identical outputs. -/
theorem C7_two_run_equivalence (s₁ s₂ : BocState) (h : s₁ = s₂) :
    (runNotebook s₁).2 = (runNotebook s₂).2 := by
  rw [h]

/-- Witness for C7: two runs on the concrete SDK state agree. -/
theorem C7_two_run_equivalence_witness :
    (runNotebook bocEx).2 = (runNotebook bocEx).2 :=
  C7_two_run_equivalence bocEx bocEx rfl

/-- Generalised invariant of the cell-24 loop: folding the mask-setting
step from any start image sets a pixel to `1` exactly when some mask in
the list is positive there, and otherwise leaves the start value. -/
theorem sum_mask_foldl_eq (masks : List MaskPlane) (s : MaskPlane)
    (i : Fin MOVIE_FOV_PX.1) (j : Fin MOVIE_FOV_PX.2) :
    (masks.foldl (fun s m => fun i j => if 0 < m i j then 1 else s i j) s) i j
      = if (∃ m ∈ masks, 0 < m i j) then 1 else s i j := by
  induction masks generalizing s with
  | nil => simp
  | cons m ms ih =>
    rw [List.foldl_cons, ih]
    by_cases h1 : ∃ x ∈ ms, 0 < x i j
    · simp [h1]
    · by_cases h2 : 0 < m i j <;> simp [h1, h2]

/-- **C8.** The combined ROI mask is the pointwise union of the per-cell
masks: `sum_mask` has shape `MOVIE_FOV_PX` (its index types), and at each
pixel it is `1` if some mask plane in `all_roi_masks` is strictly positive
there and `0` otherwise; in particular every entry is exactly `0` or `1`. -/
theorem C8_sum_mask_union (all_roi_masks : List MaskPlane)
    (i : Fin MOVIE_FOV_PX.1) (j : Fin MOVIE_FOV_PX.2) :
    (sum_mask all_roi_masks i j
        = if (∃ m ∈ all_roi_masks, 0 < m i j) then 1 else 0) ∧
    (sum_mask all_roi_masks i j = 0 ∨ sum_mask all_roi_masks i j = 1) := by
  have h := sum_mask_foldl_eq all_roi_masks (fun _ _ => 0) i j
  refine ⟨h, ?_⟩
  rw [sum_mask, h]
  by_cases hm : ∃ m ∈ all_roi_masks, 0 < m i j
  · right; simp [hm]
  · left; simp [hm]

/-- Numpy indexing succeeds without wrapping on an in-range non-negative
index. -/
theorem npIndex_of_nonneg (n : ℕ) (i : ℤ) (h0 : 0 ≤ i) (h1 : i < (n : ℤ)) :
    npIndex n i = some ⟨i.toNat, by omega⟩ := by
  rw [npIndex, dif_pos ⟨h0, h1⟩]

/-- One in-range loop iteration of cell-27 succeeds and increases the
histogram total by exactly one: the row is counted in exactly one bin. -/
theorem bumpAt_total {R C : ℕ} (m : Mat R C) (o t : ℤ)
    (ho : 0 ≤ o ∧ o < (R : ℤ)) (ht : 0 ≤ t ∧ t < (C : ℤ)) :
    ∃ m', bumpAt m o t = some m' ∧ total m' = total m + 1 := by
  refine ⟨_, by rw [bumpAt, npIndex_of_nonneg R o ho.1 ho.2,
    npIndex_of_nonneg C t ht.1 ht.2], ?_⟩
  set i : Fin R := ⟨o.toNat, by omega⟩
  set j : Fin C := ⟨t.toNat, by omega⟩
  have hpt : ∀ (a : Fin R) (b : Fin C),
      (if a = i ∧ b = j then m a b + 1 else m a b)
        = m a b + (if a = i ∧ b = j then 1 else 0) := by
    intro a b
    by_cases h : a = i ∧ b = j <;> simp [h]
  have hinner : ∀ a : Fin R,
      (∑ b : Fin C, if a = i ∧ b = j then 1 else 0) = if a = i then 1 else 0 := by
    intro a
    by_cases ha : a = i
    · subst ha; simp
    · simp [ha]
  calc (∑ a : Fin R, ∑ b : Fin C, if a = i ∧ b = j then m a b + 1 else m a b)
      = ∑ a : Fin R, ∑ b : Fin C, (m a b + (if a = i ∧ b = j then 1 else 0)) := by
        refine Finset.sum_congr rfl fun a _ => Finset.sum_congr rfl fun b _ => hpt a b
    _ = (∑ a : Fin R, ∑ b : Fin C, m a b)
          + ∑ a : Fin R, ∑ b : Fin C, (if a = i ∧ b = j then 1 else 0) := by
        simp [Finset.sum_add_distrib]
    _ = total m + 1 := by
        rw [Finset.sum_congr rfl fun a _ => hinner a]
        simp [total]

/-- Generalised invariant of the cell-27 loops: starting from any histogram,
if every row's orientation index is in `[0, R)` and its shifted
temporal-frequency index in `[0, C)`, the fold succeeds and adds exactly
the number of rows to the total. -/
theorem histDG_foldlM_total {R C : ℕ} (rows : List PeakRow) (init : Mat R C)
    (h : ∀ t ∈ rows, 0 ≤ t.ori_dg ∧ t.ori_dg < (R : ℤ) ∧
        0 ≤ t.tf_dg - 1 ∧ t.tf_dg - 1 < (C : ℤ)) :
    Option.map total
        (rows.foldlM (fun m t => bumpAt m t.ori_dg (t.tf_dg - 1)) init)
      = some (total init + rows.length) := by
  induction rows generalizing init with
  | nil => simp
  | cons t ts ih =>
    obtain ⟨ho0, ho1, ht0, ht1⟩ := h t (List.mem_cons_self t ts)
    obtain ⟨m1, hm1, htot⟩ := bumpAt_total init t.ori_dg (t.tf_dg - 1)
      ⟨ho0, ho1⟩ ⟨ht0, ht1⟩
    rw [List.foldlM_cons, hm1]
    have hrest := ih m1 (fun x hx => h x (List.mem_cons_of_mem t hx))
    simp only [Option.bind_eq_bind, Option.some_bind]
    rw [hrest, htot]
    congr 1
    simp only [List.length_cons]
    omega

/-- **C10.** The 2-d orientation/temporal-frequency histograms conserve
counts: if every selected row of `dg.peak` has `ori_dg` in
`[0, len orivals)` and `tf_dg` in `[1, len tfvals)`, then each row
increments exactly one bin of the `len orivals × (len tfvals - 1)` array,
so both loops succeed and the sum of all entries of `os` equals the number
of orientation-selective rows and the sum of `ds` the number of
direction-selective rows; the blank-sweep index `0` of `tfvals` has no
column of its own. -/
theorem C10_histogram_conservation (orivals tfvals : List ℚ)
    (peak : List PeakRow)
    (hos : ∀ t ∈ peak.filter dg_osi_cells,
        0 ≤ t.ori_dg ∧ t.ori_dg < (orivals.length : ℤ) ∧
        1 ≤ t.tf_dg ∧ t.tf_dg < (tfvals.length : ℤ))
    (hds : ∀ t ∈ peak.filter dg_dsi_cells,
        0 ≤ t.ori_dg ∧ t.ori_dg < (orivals.length : ℤ) ∧
        1 ≤ t.tf_dg ∧ t.tf_dg < (tfvals.length : ℤ)) :
    Option.map total
        (histDG orivals.length (tfvals.length - 1) (peak.filter dg_osi_cells))
      = some (peak.filter dg_osi_cells).length ∧
    Option.map total
        (histDG orivals.length (tfvals.length - 1) (peak.filter dg_dsi_cells))
      = some (peak.filter dg_dsi_cells).length := by
  have hzero : total (fun _ _ => 0 : Mat orivals.length (tfvals.length - 1)) = 0 := by
    simp [total]
  constructor
  · rw [histDG, histDG_foldlM_total _ _ ?_, hzero, Nat.zero_add]
    intro t ht
    obtain ⟨a, b, c, d⟩ := hos t ht
    refine ⟨a, b, by omega, by omega⟩
  · rw [histDG, histDG_foldlM_total _ _ ?_, hzero, Nat.zero_add]
    intro t ht
    obtain ⟨a, b, c, d⟩ := hds t ht
    refine ⟨a, b, by omega, by omega⟩

/-- Witness for C10: with two orientation values, three temporal-frequency
values (the first being the blank sweep) and one concrete selected row,
both histograms total exactly one. -/
theorem C10_histogram_conservation_witness :
    Option.map total (histDG 2 2 ([peakEx].filter dg_osi_cells)) = some 1 ∧
    Option.map total (histDG 2 2 ([peakEx].filter dg_dsi_cells)) = some 1 := by
  have hsel : ∀ t ∈ [peakEx], 0 ≤ t.ori_dg ∧ t.ori_dg < ((2 : ℕ) : ℤ) ∧
      1 ≤ t.tf_dg ∧ t.tf_dg < ((3 : ℕ) : ℤ) := by
    intro t ht
    have : t = peakEx := by simpa using ht
    subst this
    refine ⟨by decide, by decide, by decide, by decide⟩
  have h := C10_histogram_conservation [0, 45] [0, 1, 2] [peakEx]
    (fun t ht => hsel t (List.mem_of_mem_filter ht))
    (fun t ht => hsel t (List.mem_of_mem_filter ht))
  have hflen1 : ([peakEx].filter dg_osi_cells).length = 1 := by
    norm_num [dg_osi_cells, dg_vis_cells, peakEx, List.filter]
  have hflen2 : ([peakEx].filter dg_dsi_cells).length = 1 := by
    norm_num [dg_dsi_cells, dg_vis_cells, peakEx, List.filter]
  rw [hflen1, hflen2] at h
  exact ⟨h.1, h.2⟩

end CNIJC
